import Mathlib

/-!
Verification of the ColorSync backend (matchmaker / room service and game
rules service) against its specification.  The Go sources are shallowly
embedded: each handler becomes a pure Lean function over explicit state;
Go maps become association lists (with overwrite-on-insert semantics),
Go map-membership sets become `List String`, `int64` becomes `Int`, and
wall-clock instants are passed in as explicit `Int` millisecond values.
-/

namespace GameSvc

/-- RoundResult mirrors `RoundResult` in game-rules-service/main.go:
`{round, word, color, winner, latency_ms}`. -/
structure RoundResult where
  round : Nat
  word : String
  color : String
  winner : String
  latency : Int
  deriving DecidableEq, Repr

/-- Game mirrors the `Game` struct of game-rules-service/main.go.
`connections` keeps the key set of the Go `Connections` map (the socket
values themselves are irrelevant to the control flow); `disconnected`
keeps the set of players whose `disconnected[...]` flag is true;
`wrongAnswers` keeps the key set of the `wrongAnswers` map. -/
structure Game where
  roomID : String
  players : List String
  connections : List String
  status : String
  currentRound : Nat
  maxRounds : Nat
  results : List RoundResult
  disconnected : List String
  currentWord : String
  currentColor : String
  roundStartTime : Int
  roundAnswered : Bool
  roundFinished : Bool
  roundWinner : String
  roundLatency : Int
  wrongAnswers : List String
  deriving DecidableEq, Repr

/-- WSMessage mirrors the outbound `WSMessage{Type, Payload}` frames; the
only payload field a unicast click-feedback frame carries is `message`. -/
structure WSMessage where
  type : String
  message : Option String
  deriving DecidableEq, Repr

/-- handleClick embeds `handleClick` (main.go lines 512-571).  It runs under
the game mutex; `answer` is `payload["answer"]` when that key holds a string,
`now` is the current time in ms (so `time.Since(roundStartTime)` is
`now - roundStartTime`).  The second component lists the unicast frames the
handler writes, as (recipient, frame) pairs. -/
def handleClick (g : Game) (userID : String) (answer : Option String) (now : Int) :
    Game × List (String × WSMessage) :=
  if g.roundFinished then (g, [])
  else if g.roundAnswered then (g, [])
  else if userID ∈ g.wrongAnswers then (g, [])
  else
    match answer with
    | none => (g, [])
    | some a =>
      let latency := now - g.roundStartTime
      if a = g.currentColor then
        ({ g with roundAnswered := true, roundWinner := userID, roundLatency := latency }, [])
      else
        ({ g with wrongAnswers := g.wrongAnswers ++ [userID] },
         if userID ∈ g.connections then
           [(userID, { type := "ROUND_FEEDBACK",
                       message := some "Wrong answer! Blocked for this round." })]
         else [])

/-- Click is one inbound CLICK frame: the sending player, the decoded
`answer` payload field, and its arrival time in ms. -/
structure Click where
  player : String
  answer : Option String
  now : Int
  deriving Repr

/-- applyClicks folds the state effect of a sequence of CLICK frames, each
evaluated by `handleClick` under the game mutex. -/
def applyClicks (g : Game) : List Click → Game
  | [] => g
  | c :: cs => applyClicks (handleClick g c.player c.answer c.now).1 cs

/-- resetRound embeds the round-state reset at the top of `playRound`
(main.go lines 433-439): it sets the prompt, the start time, clears the
two latches, the winner and the wrong-answer set.  (The Go code does not
touch `roundLatency` here.) -/
def resetRound (g : Game) (word color : String) (startTime : Int) : Game :=
  { g with currentWord := word, currentColor := color, roundStartTime := startTime,
           roundAnswered := false, roundFinished := false, roundWinner := "",
           wrongAnswers := [] }

/-- finishRound embeds the end of `playRound`'s wait loop (main.go lines
460-486): when the 5 s deadline fires with `roundAnswered` still false the
winner becomes `"timeout"`; either way `roundFinished` is latched. -/
def finishRound (g : Game) : Game :=
  if g.roundAnswered then { g with roundFinished := true }
  else { g with roundWinner := "timeout", roundFinished := true }

/-- playRound embeds `playRound` (main.go lines 419-510) for one round:
reset the round state with the drawn `word`/`color`, evaluate the CLICK
frames that arrive before the round ends, latch the finish, then record
and broadcast the `RoundResult` built from the current round fields. -/
def playRound (g : Game) (roundNum : Nat) (word color : String) (startTime : Int)
    (clicks : List Click) : Game × RoundResult :=
  let g1 := resetRound g word color startTime
  let g2 := finishRound (applyClicks g1 clicks)
  let result : RoundResult :=
    { round := roundNum, word := g2.currentWord, color := g2.currentColor,
      winner := g2.roundWinner, latency := g2.roundLatency }
  ({ g2 with results := g2.results ++ [result] }, result)

/-- PlayerStats mirrors the local `PlayerStats` of `determineWinner`. -/
structure PlayerStats where
  wins : Nat
  totalLatency : Int
  deriving DecidableEq, Repr

/-- statsFor accumulates one player's entry of the `stats` map of
`determineWinner` (main.go lines 599-605): a result increments a player's
wins and adds its latency when its winner is that player and is neither
empty nor the `"timeout"` sentinel. -/
def statsFor (results : List RoundResult) (p : String) : PlayerStats :=
  results.foldl
    (fun s r =>
      if r.winner ≠ "" ∧ r.winner ≠ "timeout" ∧ r.winner = p then
        { wins := s.wins + 1, totalLatency := s.totalLatency + r.latency }
      else s)
    { wins := 0, totalLatency := 0 }

/-- winnerFold is the body of the selection loop of `determineWinner`
(main.go lines 612-625), folded over the stats entries; the accumulator is
`(winner, maxWins, lowestLatency)`.  Go iterates the `stats` map in an
unspecified order; the embedding fixes the insertion order, i.e. the order
of `game.Players`. -/
def winnerFold (acc : String × Nat × Int) (entry : String × PlayerStats) :
    String × Nat × Int :=
  if acc.2.1 < entry.2.wins then (entry.1, entry.2.wins, entry.2.totalLatency)
  else if entry.2.wins = acc.2.1 ∧ 0 < entry.2.wins then
    if entry.2.totalLatency < acc.2.2 then (entry.1, acc.2.1, entry.2.totalLatency)
    else acc
  else acc

/-- determineWinner embeds `determineWinner` (main.go lines 582-641):
build per-player stats, run the selection loop starting from
`("", 0, 9999999999)`, and map an empty winner to the `"draw"` sentinel. -/
def determineWinner (g : Game) : String :=
  let entries := g.players.map (fun p => (p, statsFor g.results p))
  let sel := entries.foldl winnerFold ("", 0, 9999999999)
  if sel.1 = "" then "draw" else sel.1

/-- lookupGame is `games[roomID]` on the process-wide `games` map, embedded
as an association list. -/
def lookupGame (games : List (String × Game)) (roomID : String) : Option Game :=
  (games.find? (fun kv => kv.1 = roomID)).map (·.2)

/-- insertGame is `games[roomID] = game`: overwrite when the key exists,
append otherwise (Go map assignment semantics). -/
def insertGame (games : List (String × Game)) (roomID : String) (g : Game) :
    List (String × Game) :=
  if (games.find? (fun kv => kv.1 = roomID)).isSome then
    games.map (fun kv => if kv.1 = roomID then (kv.1, g) else kv)
  else games ++ [(roomID, g)]

/-- newGame is the `Game` literal built by `startGameHandler` (main.go lines
140-148); fields the literal omits take their Go zero values. -/
def newGame (roomID : String) (players : List String) : Game :=
  { roomID := roomID, players := players, connections := [],
    status := "waiting_for_players", currentRound := 0, maxRounds := 5,
    results := [], disconnected := [], currentWord := "", currentColor := "",
    roundStartTime := 0, roundAnswered := false, roundFinished := false,
    roundWinner := "", roundLatency := 0, wrongAnswers := [] }

/-- StartGameRequest mirrors the JSON body `{room_id, players}`. -/
structure StartGameRequest where
  roomID : String
  players : List String
  deriving Repr

/-- GameStartCtx is the request as the game service sees it: the HTTP
method, the `X-Service-Token` header if present, and the decoded body
(`none` when JSON decoding fails). -/
structure GameStartCtx where
  method : String
  serviceToken : Option String
  body : Option StartGameRequest
  deriving Repr

/-- StartOutcome is the response of the /game/start pipeline.
`unauthorizedService` is the 401 produced by the service-auth middleware. -/
inductive StartOutcome where
  | methodNotAllowed
  | badRequest
  | unauthorizedService
  | ok (roomID status : String)
  deriving DecidableEq, Repr

/-- startGameHandler embeds `startGameHandler` (main.go lines 119-165):
reject non-POST, reject an undecodable body, reject unless the body has a
room id and exactly two players, otherwise create the game record and
answer 200 with status `waiting_for_players`.  The handler never reads the
`X-Service-Token` header. -/
def startGameHandler (games : List (String × Game)) (ctx : GameStartCtx) :
    StartOutcome × List (String × Game) :=
  if ctx.method ≠ "POST" then (.methodNotAllowed, games)
  else
    match ctx.body with
    | none => (.badRequest, games)
    | some req =>
      if req.roomID = "" ∨ req.players.length ≠ 2 then (.badRequest, games)
      else (.ok req.roomID "waiting_for_players",
            insertGame games req.roomID (newGame req.roomID req.players))

/-- requireServiceAuth embeds `middleware.RequireServiceAuth`
(shared/middleware/auth.go lines 63-87): 401 when the `X-Service-Token`
header is absent, 401 when `VerifyServiceToken` (abstracted as the
`verify` predicate) rejects it, otherwise run the wrapped handler. -/
def requireServiceAuth (verify : String → Bool) (token : Option String)
    (handler : Unit → StartOutcome × List (String × Game))
    (games : List (String × Game)) : StartOutcome × List (String × Game) :=
  match token with
  | none => (.unauthorizedService, games)
  | some t => if verify t then handler () else (.unauthorizedService, games)

/-- gameStartRoute is the binding `http.HandleFunc("/game/start",
startGameHandler)` in the game service's `main` (main.go line 69): the bare
handler, not wrapped in `middleware.RequireServiceAuth`. -/
def gameStartRoute (games : List (String × Game)) (ctx : GameStartCtx) :
    StartOutcome × List (String × Game) :=
  startGameHandler games ctx

/-- WSOutcome is the result of a /game/ws connection attempt.
`rejected` is the path that closes the freshly upgraded socket without
registering it; `registered` carries the updated game and whether the
round scheduler was spawned. -/
inductive WSOutcome where
  | badRequest
  | gameNotFound
  | rejected (status : String)
  | registered (g : Game) (started : Bool)
  deriving DecidableEq, Repr

/-- wsHandler embeds `wsHandler` (main.go lines 167-230): require both
query params, look the game up, close the socket when the game status is
`in_progress` or `finished`, otherwise install the connection (replacing
any previous one for the same player), clear the player's disconnected
flag, and start the game when both players are registered and the status
is still `waiting_for_players`. -/
def wsHandler (games : List (String × Game)) (roomID userID : String) : WSOutcome :=
  if roomID = "" ∨ userID = "" then .badRequest
  else
    match lookupGame games roomID with
    | none => .gameNotFound
    | some g =>
      if g.status = "in_progress" ∨ g.status = "finished" then .rejected g.status
      else
        let conns := if userID ∈ g.connections then g.connections
                     else g.connections ++ [userID]
        let g' := { g with connections := conns,
                           disconnected := g.disconnected.filter (· ≠ userID) }
        if conns.length = 2 ∧ g.status = "waiting_for_players" then
          .registered { g' with status := "in_progress" } true
        else .registered g' false

/-- isRejected tells whether a connection attempt was refused after the
game lookup succeeded. -/
def WSOutcome.isRejected : WSOutcome → Bool
  | .rejected _ => true
  | _ => false

/-- isRegistered tells whether the connection was installed. -/
def WSOutcome.isRegistered : WSOutcome → Bool
  | .registered _ _ => true
  | _ => false

/-- connectionsOf returns the connection set of the game a `registered`
outcome carries (empty for every other outcome). -/
def WSOutcome.connectionsOf : WSOutcome → List String
  | .registered g _ => g.connections
  | _ => []

end GameSvc

namespace RoomSvc

/-- Room mirrors the `Room` struct of the room service (part_013 lines
20-24): id, ordered player list, and a status string ("waiting" or
"full"). -/
structure Room where
  id : String
  players : List String
  status : String
  deriving DecidableEq, Repr

/-- MMState is the matchmaker's shared state: the `rooms` map (embedded as
an association list with Go-map overwrite-on-assignment) and the
`waitingRoomID` pointer cell, both guarded by one mutex. -/
structure MMState where
  rooms : List (String × Room)
  waitingRoomID : Option String
  deriving DecidableEq, Repr

/-- lookupRoom is `rooms[roomID]` (comma-ok form). -/
def lookupRoom (rooms : List (String × Room)) (roomID : String) : Option Room :=
  (rooms.find? (fun kv => kv.1 = roomID)).map (·.2)

/-- updateRoom models mutating the `*Room` stored under an existing key
(the map's key set is unchanged). -/
def updateRoom (rooms : List (String × Room)) (roomID : String) (r : Room) :
    List (String × Room) :=
  rooms.map (fun kv => if kv.1 = roomID then (kv.1, r) else kv)

/-- insertRoom is `rooms[roomID] = room`: overwrite when the key exists,
append otherwise (Go map assignment semantics). -/
def insertRoom (rooms : List (String × Room)) (roomID : String) (r : Room) :
    List (String × Room) :=
  if (rooms.find? (fun kv => kv.1 = roomID)).isSome then updateRoom rooms roomID r
  else rooms ++ [(roomID, r)]

/-- UserClaims mirrors the verified user-JWT claims the auth middleware
stores in the request context. -/
structure UserClaims where
  userID : String
  username : String
  deriving Repr

/-- JoinRequest mirrors the `/join` body `{user_id}`. -/
structure JoinRequest where
  userID : String
  deriving Repr

/-- JoinCtx is a `/join` request as `joinRoomHandler` sees it: HTTP method,
the claims the `RequireAuth` middleware attached (`none` when
authentication failed upstream), the decoded body (`none` on a JSON decode
error), and the boolean outcome of the external `verifyUser` call to the
user service. -/
structure JoinCtx where
  method : String
  claims : Option UserClaims
  body : Option JoinRequest
  userExists : Bool
  deriving Repr

/-- JoinOutcome enumerates the exits of `joinRoomHandler` (part_013 lines
103-217).  `nilRoomDeref` marks the two places where the Go code would
dereference a nil `*Room` (the waiting slot pointing at a missing key);
no response is written there because the handler goroutine panics. -/
inductive JoinOutcome where
  | methodNotAllowed
  | unauthorized
  | invalidBody
  | missingUserID
  | userIDMismatch
  | userNotFound
  | alreadyInQueue
  | alreadyInRoom
  | selfMatch
  | nilRoomDeref
  | joined (room : Room)
  deriving DecidableEq, Repr

/-- httpStatus maps each handler exit to the HTTP status it writes
(0 for the panic exit, which writes none). -/
def JoinOutcome.httpStatus : JoinOutcome → Nat
  | .methodNotAllowed => 405
  | .unauthorized => 401
  | .invalidBody => 400
  | .missingUserID => 400
  | .userIDMismatch => 403
  | .userNotFound => 404
  | .alreadyInQueue => 409
  | .alreadyInRoom => 409
  | .selfMatch => 409
  | .nilRoomDeref => 0
  | .joined _ => 200

/-- joinCritical embeds the part of `joinRoomHandler` that runs under the
matchmaking mutex (part_013 lines 147-217): reject when the user is
already in the waiting room or in any room; otherwise append the user to
the waiting room (status becomes "full", the slot is cleared, the game
service is notified asynchronously) or create a fresh "waiting" room whose
id (`newRoomID`) fills the slot. -/
def joinCritical (st : MMState) (userID newRoomID : String) : JoinOutcome × MMState :=
  let dup : Option JoinOutcome :=
    match st.waitingRoomID with
    | none => none
    | some wid =>
      match lookupRoom st.rooms wid with
      | none => some .nilRoomDeref
      | some wr => if userID ∈ wr.players then some .alreadyInQueue else none
  match dup with
  | some out => (out, st)
  | none =>
    if st.rooms.any (fun kv => decide (userID ∈ kv.2.players)) then (.alreadyInRoom, st)
    else
      match st.waitingRoomID with
      | some wid =>
        match lookupRoom st.rooms wid with
        | none => (.nilRoomDeref, st)
        | some wr =>
          if wr.players.head? = some userID then (.selfMatch, st)
          else
            let wr' := { wr with players := wr.players ++ [userID], status := "full" }
            (.joined wr', { rooms := updateRoom st.rooms wid wr', waitingRoomID := none })
      | none =>
        let r : Room := { id := newRoomID, players := [userID], status := "waiting" }
        (.joined r, { rooms := insertRoom st.rooms newRoomID r,
                      waitingRoomID := some newRoomID })

/-- joinRoomHandler embeds `joinRoomHandler` (part_013 lines 103-217):
method check, middleware claims check, body decode, non-empty user id,
body/claims identity match, external user lookup, then the critical
section.  `newRoomID` stands for the `uuid.New().String()` draw. -/
def joinRoomHandler (st : MMState) (ctx : JoinCtx) (newRoomID : String) :
    JoinOutcome × MMState :=
  if ctx.method ≠ "POST" then (.methodNotAllowed, st)
  else
    match ctx.claims with
    | none => (.unauthorized, st)
    | some claims =>
      match ctx.body with
      | none => (.invalidBody, st)
      | some req =>
        if req.userID = "" then (.missingUserID, st)
        else if req.userID ≠ claims.userID then (.userIDMismatch, st)
        else if ¬ ctx.userExists then (.userNotFound, st)
        else joinCritical st req.userID newRoomID

/-- subtreeMatch is the prefix test (`strings.HasPrefix`) that an
`http.ServeMux` subtree pattern performs, on the character lists of the
two strings. -/
def subtreeMatch (pre s : String) : Bool :=
  pre.toList.isPrefixOf s.toList

/-- GetRoomOutcome enumerates the exits of `getRoomHandler`. -/
inductive GetRoomOutcome where
  | methodNotAllowed
  | roomIDRequired
  | roomNotFound
  | ok (r : Room)
  deriving DecidableEq, Repr

/-- getRoomHandler embeds `getRoomHandler` (part_013 lines 282-315): GET
only, then everything after the `/rooms/` prefix is the room id to look
up.  It only reads the state. -/
def getRoomHandler (st : MMState) (method path : String) : GetRoomOutcome :=
  if method ≠ "GET" then .methodNotAllowed
  else if path.length ≤ "/rooms/".length then .roomIDRequired
  else
    match lookupRoom st.rooms (path.drop "/rooms/".length) with
    | none => .roomNotFound
    | some r => .ok r

/-- ReadyOutcome enumerates the exits of `roomReadyHandler`. -/
inductive ReadyOutcome where
  | methodNotAllowed
  | invalidPath
  | roomNotFound
  | ok (ready : Bool) (players : List String)
  deriving DecidableEq, Repr

/-- roomReadyHandler embeds `roomReadyHandler` (part_013 lines 318-366):
GET only, path must be `/room/{id}/ready`, and the room is ready iff it
has exactly two players.  It only reads the state. -/
def roomReadyHandler (st : MMState) (method path : String) : ReadyOutcome :=
  if method ≠ "GET" then .methodNotAllowed
  else if ¬ subtreeMatch "/room/" path then .invalidPath
  else
    let parts := (path.drop "/room/".length).splitOn "/"
    if parts.length ≠ 2 ∨ parts.getD 1 "" ≠ "ready" then .invalidPath
    else
      match lookupRoom st.rooms (parts.getD 0 "") with
      | none => .roomNotFound
      | some r => .ok (r.players.length = 2) r.players

/-- RoomSvcResponse wraps the response of whichever handler the room
service's mux dispatched to. -/
inductive RoomSvcResponse where
  | joinResp (o : JoinOutcome)
  | getRoomResp (o : GetRoomOutcome)
  | readyResp (o : ReadyOutcome)
  | healthResp
  | notFoundResp
  deriving DecidableEq, Repr

/-- roomServiceHandle embeds the route table registered in the room
service's `main` (part_013 lines 62-70) plus `http.ServeMux` matching:
the exact patterns `/join` and `/health`, and the subtree patterns
`/rooms/` and `/room/` (longest pattern wins; the two subtrees are
disjoint).  No pattern for a leave operation is registered.  Only the
`/join` handler writes the state. -/
def roomServiceHandle (st : MMState) (method path : String) (ctx : JoinCtx)
    (newRoomID : String) : RoomSvcResponse × MMState :=
  if path = "/join" then
    (.joinResp (joinRoomHandler st ctx newRoomID).1, (joinRoomHandler st ctx newRoomID).2)
  else if path = "/health" then (.healthResp, st)
  else if subtreeMatch "/rooms/" path then (.getRoomResp (getRoomHandler st method path), st)
  else if subtreeMatch "/room/" path then (.readyResp (roomReadyHandler st method path), st)
  else (.notFoundResp, st)

/-- MMOp is one matchmaker request; `join` carries the request context and
the uuid draw, the other operations are the read-only handlers. -/
inductive MMOp where
  | join (ctx : JoinCtx) (newRoomID : String)
  | getRoom (method path : String)
  | roomReady (method path : String)
  | health

/-- mmStep is the state effect of one matchmaker request:
`getRoomHandler`, `roomReadyHandler` and `healthHandler` take only the
read lock and never write, so only `join` changes the state. -/
def mmStep (st : MMState) : MMOp → MMState
  | .join ctx newRoomID => (joinRoomHandler st ctx newRoomID).2
  | .getRoom _ _ => st
  | .roomReady _ _ => st
  | .health => st

/-- mmRun applies a sequence of matchmaker requests. -/
def mmRun (st : MMState) : List MMOp → MMState
  | [] => st
  | op :: ops => mmRun (mmStep st op) ops

/-- userInSomeRoom says the player id appears in the player list of some
room in the table. -/
def userInSomeRoom (st : MMState) (userID : String) : Bool :=
  st.rooms.any (fun kv => decide (userID ∈ kv.2.players))

/-- waitingSlotOK says the waiting slot, when set, points at an existing
key of the room table (the invariant whose failure would make the Go
handler dereference a nil `*Room`). -/
def waitingSlotOK (st : MMState) : Bool :=
  match st.waitingRoomID with
  | none => true
  | some wid => (lookupRoom st.rooms wid).isSome

/-- MMWF is the well-formedness the running service maintains: the room
table's keys are distinct (it embeds a Go map) and the waiting slot points
at an existing room when set. -/
def MMWF (st : MMState) : Prop :=
  (st.rooms.map Prod.fst).Nodup ∧ waitingSlotOK st = true

instance : DecidablePred MMWF := fun st => by
  unfold MMWF; infer_instance

/-- opFresh says a join operation's uuid draw does not collide with an
existing room key (read operations are unconstrained). -/
def opFresh (st : MMState) : MMOp → Bool
  | .join _ newRoomID => !(lookupRoom st.rooms newRoomID).isSome
  | _ => true

/-- freshRun says every join along the run draws a room id that is fresh
for the state it executes in. -/
def freshRun (st : MMState) : List MMOp → Bool
  | [] => true
  | op :: ops => opFresh st op && freshRun (mmStep st op) ops

end RoomSvc

namespace GameSvc

/-- demoGame is a freshly created two-player game record, the common
starting point of the concrete scenarios below. -/
def demoGame : Game := newGame "room-1" ["alice", "bob"]

/-- lockedGame is a round state in which alice is already locked out. -/
def lockedGame : Game := { demoGame with currentColor := "red", wrongAnswers := ["alice"] }

/-- lockedClicks is a click sequence ending with bob's correct answer. -/
def lockedClicks : List Click :=
  [{ player := "alice", answer := some "red", now := 1200 },
   { player := "bob", answer := some "red", now := 1500 }]

/-- feedbackGame is a round state with both players connected and the
displayed text color red. -/
def feedbackGame : Game :=
  { demoGame with currentColor := "red", connections := ["alice", "bob"],
                  roundStartTime := 1000 }

/-- tieGame is a finished game in which each player won one round with the
same 500 ms latency. -/
def tieGame : Game :=
  { demoGame with results :=
      [ { round := 1, word := "RED", color := "blue", winner := "alice", latency := 500 },
        { round := 2, word := "GREEN", color := "red", winner := "bob", latency := 500 } ] }

/-- unauthCtx is a well-formed /game/start request that carries no
X-Service-Token header. -/
def unauthCtx : GameStartCtx :=
  { method := "POST", serviceToken := none,
    body := some { roomID := "room-1", players := ["alice", "bob"] } }

end GameSvc

namespace RoomSvc

/-- queuedState is a matchmaker state in which alice sits alone in the
waiting room r1. -/
def queuedState : MMState :=
  { rooms := [("r1", { id := "r1", players := ["alice"], status := "waiting" })],
    waitingRoomID := some "r1" }

/-- aliceJoinCtx is a fully authenticated, well-formed /join request from
alice. -/
def aliceJoinCtx : JoinCtx :=
  { method := "POST", claims := some { userID := "alice", username := "Alice" },
    body := some { userID := "alice" }, userExists := true }

/-- bobJoinCtx is a fully authenticated, well-formed /join request from
bob. -/
def bobJoinCtx : JoinCtx :=
  { method := "POST", claims := some { userID := "bob", username := "Bob" },
    body := some { userID := "bob" }, userExists := true }

end RoomSvc

namespace GameSvc

theorem handleClick_latched (g : Game) (p : String) (a : Option String) (now : Int)
    (h : g.roundAnswered = true ∨ g.roundFinished = true) :
    handleClick g p a now = (g, []) := by
  unfold handleClick
  rcases h with h | h
  · cases hf : g.roundFinished <;> simp [hf, h]
  · simp [h]

theorem handleClick_locked (g : Game) (p : String) (a : Option String) (now : Int)
    (hp : p ∈ g.wrongAnswers) :
    handleClick g p a now = (g, []) := by
  unfold handleClick
  cases hf : g.roundFinished <;> cases ha : g.roundAnswered <;> simp [hf, ha, hp]

theorem lockout_step (g : Game) (q : String) (a : Option String) (now : Int) (p : String)
    (hp : p ∈ g.wrongAnswers) (hw : g.roundWinner ≠ p) :
    p ∈ ((handleClick g q a now).1).wrongAnswers ∧
    ((handleClick g q a now).1).roundWinner ≠ p := by
  unfold handleClick
  cases hf : g.roundFinished
  · cases ha : g.roundAnswered
    · by_cases hq : q ∈ g.wrongAnswers
      · simp [hq, hp, hw]
      · cases a with
        | none => simp [hq, hp, hw]
        | some s =>
          by_cases hc : s = g.currentColor
          · have hqp : q ≠ p := fun h => hq (h ▸ hp)
            simp [hq, hc, hp, hqp]
          · simp [hq, hc, hw, List.mem_append, hp]
    · simp [ha, hp, hw]
  · simp [hf, hp, hw]

theorem lockout_run (g : Game) (p : String) (clicks : List Click)
    (hp : p ∈ g.wrongAnswers) (hw : g.roundWinner ≠ p) :
    p ∈ (applyClicks g clicks).wrongAnswers ∧ (applyClicks g clicks).roundWinner ≠ p := by
  induction clicks generalizing g with
  | nil => exact ⟨hp, hw⟩
  | cons c cs ih =>
    have h := lockout_step g c.player c.answer c.now p hp hw
    exact ih _ h.1 h.2

/-- C4: within a round, a CLICK evaluated under the game lock after
`round_answered` (or `round_finished`) is true leaves the whole round
state unchanged, and the first correct CLICK from an unlocked player in an
open round latches `round_answered` and sets the round winner and its
latency. -/
theorem round_arbitration :
    (∀ (g : Game) (p : String) (a : Option String) (now : Int),
        g.roundAnswered = true ∨ g.roundFinished = true →
        handleClick g p a now = (g, [])) ∧
    (∀ (g : Game) (p : String) (ans : String) (now : Int),
        g.roundFinished = false → g.roundAnswered = false → p ∉ g.wrongAnswers →
        ans = g.currentColor →
        (handleClick g p (some ans) now).1 =
          { g with roundAnswered := true, roundWinner := p,
                   roundLatency := now - g.roundStartTime }) := by
  constructor
  · exact handleClick_latched
  · intro g p ans now hf ha hw hc
    simp [handleClick, hf, ha, hw, hc]

/-- Witness for `round_arbitration`: a click into an already-answered round
is a no-op, and alice's correct click at 1400 ms into a round started at
1000 ms wins it with latency 400 ms. -/
theorem round_arbitration_witness :
    handleClick { demoGame with roundAnswered := true } "bob" (some "red") 700 =
      ({ demoGame with roundAnswered := true }, []) ∧
    (handleClick { demoGame with currentColor := "red", roundStartTime := 1000 }
        "alice" (some "red") 1400).1 =
      { demoGame with currentColor := "red", roundStartTime := 1000,
                      roundAnswered := true, roundWinner := "alice", roundLatency := 400 } := by
  refine ⟨round_arbitration.1 _ _ _ _ (Or.inl rfl), ?_⟩
  have h := round_arbitration.2 { demoGame with currentColor := "red", roundStartTime := 1000 }
    "alice" "red" 1400 rfl rfl (by decide) rfl
  exact h.trans (by decide)

/-- C5: a player already in `wrong_answers` for the current round can never
change the round state with a later CLICK (even a correct one), stays in
`wrong_answers` through any further click sequence, and never ends the
round as its winner. -/
theorem lockout_honored (g : Game) (p : String) (clicks : List Click)
    (hp : p ∈ g.wrongAnswers) (hw : g.roundWinner ≠ p) :
    (∀ (a : Option String) (now : Int),
        handleClick (applyClicks g clicks) p a now = (applyClicks g clicks, [])) ∧
    p ∈ (applyClicks g clicks).wrongAnswers ∧
    (applyClicks g clicks).roundWinner ≠ p ∧
    (p ≠ "timeout" → (finishRound (applyClicks g clicks)).roundWinner ≠ p) := by
  obtain ⟨h1, h2⟩ := lockout_run g p clicks hp hw
  refine ⟨fun a now => handleClick_locked _ _ a now h1, h1, h2, fun ht => ?_⟩
  unfold finishRound
  by_cases hb : (applyClicks g clicks).roundAnswered = true
  · simp [hb, h2]
  · simp only [hb, if_false, Bool.false_eq_true]
    exact fun h => ht h.symm

/-- Witness for `lockout_honored`: alice is locked out, clicks the correct
color again after bob's winning click, and the round ends with bob (not
alice) as winner. -/
theorem lockout_honored_witness :
    handleClick (applyClicks lockedGame lockedClicks) "alice" (some "red") 1600 =
      (applyClicks lockedGame lockedClicks, []) ∧
    "alice" ∈ (applyClicks lockedGame lockedClicks).wrongAnswers ∧
    (applyClicks lockedGame lockedClicks).roundWinner ≠ "alice" ∧
    (finishRound (applyClicks lockedGame lockedClicks)).roundWinner ≠ "alice" := by
  have h := lockout_honored lockedGame "alice" lockedClicks (by decide) (by decide)
  exact ⟨h.1 _ _, h.2.1, h.2.2.1, h.2.2.2 (by decide)⟩

/-- C7: on a wrong CLICK the runtime inserts the player into
`wrong_answers` and unicasts a frame to that player only — but the frame's
type is `ROUND_FEEDBACK`, not the `WRONG_ANSWER` the protocol
documentation and the clients expect. -/
theorem wrong_click_sends_round_feedback :
    handleClick feedbackGame "bob" (some "blue") 1350 =
      ({ feedbackGame with wrongAnswers := ["bob"] },
       [("bob", { type := "ROUND_FEEDBACK",
                  message := some "Wrong answer! Blocked for this round." })]) ∧
    "ROUND_FEEDBACK" ≠ "WRONG_ANSWER" := by decide

/-- C2: `playRound` resets the latches, the winner, the prompt and the
wrong-answer set but not `roundLatency`, so after alice wins round 1 with
400 ms, a fully silent round 2 is reported as
`winner = "timeout"` with `latency_ms = 400`, not 0. -/
theorem timeout_round_reports_stale_latency :
    (playRound demoGame 1 "RED" "blue" 1000
        [{ player := "alice", answer := some "blue", now := 1400 }]).2 =
      { round := 1, word := "RED", color := "blue", winner := "alice", latency := 400 } ∧
    (playRound (playRound demoGame 1 "RED" "blue" 1000
        [{ player := "alice", answer := some "blue", now := 1400 }]).1
        2 "GREEN" "yellow" 10000 []).2 =
      { round := 2, word := "GREEN", color := "yellow", winner := "timeout",
        latency := 400 } := by decide

/-- Counterexample to C3: with one win each and equal 500 ms total
latency, `determineWinner` returns the first player of the stats
iteration, not the `"draw"` sentinel the claim requires. -/
theorem tie_equal_latency_not_draw :
    determineWinner tieGame = "alice" ∧ determineWinner tieGame ≠ "draw" ∧
    statsFor tieGame.results "alice" = { wins := 1, totalLatency := 500 } ∧
    statsFor tieGame.results "bob" = { wins := 1, totalLatency := 500 } := by decide

/-- C3 (amended): for a two-player game, `determineWinner` picks the
player with strictly more wins, breaks a tie of positive wins by strictly
lower total latency, returns the first-iterated player (not `"draw"`)
when wins and total latency are both tied and positive, and returns
`"draw"` exactly when neither player won a round. -/
theorem winnerFold_start (p : String) (s : PlayerStats) :
    winnerFold ("", 0, 9999999999) (p, s) =
      if 0 < s.wins then (p, s.wins, s.totalLatency) else ("", 0, 9999999999) := by
  unfold winnerFold
  by_cases h : 0 < s.wins <;> simp [h]

theorem winnerFold_two (A B : String) (sA sB : PlayerStats) (hA : A ≠ "") (hB : B ≠ "") :
    (if (([(A, sA), (B, sB)]).foldl winnerFold ("", 0, 9999999999)).1 = "" then "draw"
     else (([(A, sA), (B, sB)]).foldl winnerFold ("", 0, 9999999999)).1) =
      (if sA.wins = 0 ∧ sB.wins = 0 then "draw"
       else if sA.wins < sB.wins then B
       else if sB.wins < sA.wins then A
       else if sB.totalLatency < sA.totalLatency then B else A) := by
  have e0 : (([(A, sA), (B, sB)]).foldl winnerFold ("", 0, 9999999999)) =
      winnerFold (winnerFold ("", 0, 9999999999) (A, sA)) (B, sB) := rfl
  rcases Nat.eq_zero_or_pos sA.wins with h0A | hposA
  · have e1 : winnerFold ("", 0, 9999999999) (A, sA) = ("", 0, 9999999999) := by
      rw [winnerFold_start, if_neg (show ¬ 0 < sA.wins by omega)]
    rcases Nat.eq_zero_or_pos sB.wins with h0B | hposB
    · have e2 : winnerFold ("", 0, 9999999999) (B, sB) = ("", 0, 9999999999) := by
        rw [winnerFold_start, if_neg (show ¬ 0 < sB.wins by omega)]
      rw [e0, e1, e2]
      dsimp only
      rw [if_pos rfl, if_pos ⟨h0A, h0B⟩]
    · have e2 : winnerFold ("", 0, 9999999999) (B, sB) = (B, sB.wins, sB.totalLatency) := by
        rw [winnerFold_start, if_pos hposB]
      rw [e0, e1, e2]
      dsimp only
      rw [if_neg hB, if_neg (show ¬ (sA.wins = 0 ∧ sB.wins = 0) by omega),
        if_pos (show sA.wins < sB.wins by omega)]
  · have e1 : winnerFold ("", 0, 9999999999) (A, sA) = (A, sA.wins, sA.totalLatency) := by
      rw [winnerFold_start, if_pos hposA]
    rcases Nat.lt_trichotomy sA.wins sB.wins with hlt | heq | hgt
    · have e2 : winnerFold (A, sA.wins, sA.totalLatency) (B, sB) =
          (B, sB.wins, sB.totalLatency) := by
        unfold winnerFold
        dsimp only
        rw [if_pos hlt]
      rw [e0, e1, e2]
      dsimp only
      rw [if_neg hB, if_neg (show ¬ (sA.wins = 0 ∧ sB.wins = 0) by omega), if_pos hlt]
    · have e2 : winnerFold (A, sA.wins, sA.totalLatency) (B, sB) =
          if sB.totalLatency < sA.totalLatency then (B, sA.wins, sB.totalLatency)
          else (A, sA.wins, sA.totalLatency) := by
        unfold winnerFold
        dsimp only
        rw [if_neg (show ¬ sA.wins < sB.wins by omega),
          if_pos (show sB.wins = sA.wins ∧ 0 < sB.wins by omega)]
      by_cases hlat : sB.totalLatency < sA.totalLatency
      · rw [e0, e1, e2, if_pos hlat]
        dsimp only
        rw [if_neg hB, if_neg (show ¬ (sA.wins = 0 ∧ sB.wins = 0) by omega),
          if_neg (show ¬ sA.wins < sB.wins by omega),
          if_neg (show ¬ sB.wins < sA.wins by omega), if_pos hlat]
      · rw [e0, e1, e2, if_neg hlat]
        dsimp only
        rw [if_neg hA, if_neg (show ¬ (sA.wins = 0 ∧ sB.wins = 0) by omega),
          if_neg (show ¬ sA.wins < sB.wins by omega),
          if_neg (show ¬ sB.wins < sA.wins by omega), if_neg hlat]
    · have e2 : winnerFold (A, sA.wins, sA.totalLatency) (B, sB) =
          (A, sA.wins, sA.totalLatency) := by
        unfold winnerFold
        dsimp only
        rw [if_neg (show ¬ sA.wins < sB.wins by omega),
          if_neg (show ¬ (sB.wins = sA.wins ∧ 0 < sB.wins) by omega)]
      rw [e0, e1, e2]
      dsimp only
      rw [if_neg hA, if_neg (show ¬ (sA.wins = 0 ∧ sB.wins = 0) by omega),
        if_neg (show ¬ sA.wins < sB.wins by omega), if_pos hgt]

/-- C3 (amended): for a two-player game, `determineWinner` picks the
player with strictly more wins, breaks a tie of positive wins by strictly
lower total latency, returns the first-iterated player (not `"draw"`)
when wins and total latency are both tied and positive, and returns
`"draw"` exactly when neither player won a round. -/
theorem determineWinner_two_players (g : Game) (A B : String)
    (hp : g.players = [A, B]) (hA : A ≠ "") (hB : B ≠ "") :
    determineWinner g =
      if (statsFor g.results A).wins = 0 ∧ (statsFor g.results B).wins = 0 then "draw"
      else if (statsFor g.results A).wins < (statsFor g.results B).wins then B
      else if (statsFor g.results B).wins < (statsFor g.results A).wins then A
      else if (statsFor g.results B).totalLatency < (statsFor g.results A).totalLatency
      then B else A := by
  have key := winnerFold_two A B (statsFor g.results A) (statsFor g.results B) hA hB
  unfold determineWinner
  rw [hp]
  simp only [List.map_cons, List.map_nil]
  exact key

/-- Witness for `determineWinner_two_players` at the tied concrete game:
the closed form evaluates to alice. -/
theorem determineWinner_two_players_witness :
    determineWinner tieGame =
      if (statsFor tieGame.results "alice").wins = 0 ∧
          (statsFor tieGame.results "bob").wins = 0 then "draw"
      else if (statsFor tieGame.results "alice").wins <
          (statsFor tieGame.results "bob").wins then "bob"
      else if (statsFor tieGame.results "bob").wins <
          (statsFor tieGame.results "alice").wins then "alice"
      else if (statsFor tieGame.results "bob").totalLatency <
          (statsFor tieGame.results "alice").totalLatency then "bob"
      else "alice" :=
  determineWinner_two_players tieGame "alice" "bob" rfl (by decide) (by decide)

/-- Counterexample to C6: a game whose status is `"completed"` is not
refused by the session handler — the new connection is accepted and
registered. -/
theorem completed_game_registers_connection :
    (wsHandler [("room-1", { demoGame with status := "completed" })] "room-1"
        "alice").isRegistered = true ∧
    "alice" ∈ (wsHandler [("room-1", { demoGame with status := "completed" })] "room-1"
        "alice").connectionsOf := by decide

/-- C6 (amended): with both query parameters present and the game found,
`wsHandler` rejects the connection exactly when the game status is
`in_progress` or `finished`; a game with status `completed` accepts the
connection and registers it. -/
theorem open_session_joinable (games : List (String × Game)) (roomID userID : String)
    (g : Game) (h1 : roomID ≠ "") (h2 : userID ≠ "")
    (hg : lookupGame games roomID = some g) :
    ((wsHandler games roomID userID).isRejected = true ↔
      (g.status = "in_progress" ∨ g.status = "finished")) ∧
    (g.status = "completed" →
      (wsHandler games roomID userID).isRegistered = true ∧
      userID ∈ (wsHandler games roomID userID).connectionsOf) := by
  unfold wsHandler
  rw [hg]
  simp only [h1, h2, or_self, if_false]
  by_cases hs : g.status = "in_progress" ∨ g.status = "finished"
  · refine ⟨by simp [hs, WSOutcome.isRejected], fun hc => ?_⟩
    rw [hc] at hs
    rcases hs with hs | hs <;> exact absurd hs (by decide)
  · have hmem : userID ∈ (if userID ∈ g.connections then g.connections
        else g.connections ++ [userID]) := by
      by_cases hm : userID ∈ g.connections
      · rw [if_pos hm]
        exact hm
      · simp [hm]
    by_cases hstart : (if userID ∈ g.connections then g.connections
        else g.connections ++ [userID]).length = 2 ∧ g.status = "waiting_for_players"
    · simp [hs, hstart, WSOutcome.isRejected, WSOutcome.isRegistered,
        WSOutcome.connectionsOf, hmem]
    · simp [hs, hstart, WSOutcome.isRejected, WSOutcome.isRegistered,
        WSOutcome.connectionsOf, hmem]

/-- Witness for `open_session_joinable`: at a completed one-game table the
session handler registers alice's connection. -/
theorem open_session_joinable_witness :
    ((wsHandler [("room-1", { demoGame with status := "completed" })] "room-1"
        "bob").isRejected = true ↔
      (("completed" : String) = "in_progress" ∨ ("completed" : String) = "finished")) ∧
    (wsHandler [("room-1", { demoGame with status := "completed" })] "room-1"
        "bob").isRegistered = true ∧
    "bob" ∈ (wsHandler [("room-1", { demoGame with status := "completed" })] "room-1"
        "bob").connectionsOf := by
  have h := open_session_joinable [("room-1", { demoGame with status := "completed" })]
    "room-1" "bob" { demoGame with status := "completed" } (by decide) (by decide) rfl
  exact ⟨h.1, h.2 rfl⟩

/-- C1: the game service's route table binds /game/start to the bare
`startGameHandler`, which never reads X-Service-Token: a syntactically
valid announcement without any service credential is accepted with 200 and
creates the game record, while the (unused) `RequireServiceAuth`
middleware would have answered 401 and left the table empty. -/
theorem game_start_accepts_missing_service_token :
    (gameStartRoute [] unauthCtx).1 = .ok "room-1" "waiting_for_players" ∧
    lookupGame (gameStartRoute [] unauthCtx).2 "room-1" =
      some (newGame "room-1" ["alice", "bob"]) ∧
    (∀ verify : String → Bool,
        requireServiceAuth verify unauthCtx.serviceToken
          (fun _ => startGameHandler [] unauthCtx) [] = (.unauthorizedService, [])) := by
  exact ⟨by decide, by decide, fun verify => rfl⟩

end GameSvc

namespace RoomSvc

/-- C8: the room service registers no route for a leave operation, so
`POST /rooms/{id}/leave` falls through the `/rooms/` subtree pattern into
`getRoomHandler`, whose method check answers 405 without touching the
room table or the waiting slot — while the repository's own integration
test and clients expect a 200 that removes the caller. -/
theorem no_leave_route (st : MMState) (ctx : JoinCtx) (newRoomID : String) :
    roomServiceHandle st "POST" "/rooms/room-1/leave" ctx newRoomID =
      (.getRoomResp .methodNotAllowed, st) := by
  unfold roomServiceHandle
  rw [if_neg (show ¬ ("/rooms/room-1/leave" = "/join") by decide),
    if_neg (show ¬ ("/rooms/room-1/leave" = "/health") by decide),
    if_pos (show subtreeMatch "/rooms/" "/rooms/room-1/leave" = true by decide)]
  unfold getRoomHandler
  rw [if_pos (show ("POST" : String) ≠ "GET" by decide)]

theorem userInSomeRoom_of_mem {st : MMState} {u : String}
    (h : ∃ kv ∈ st.rooms, u ∈ kv.2.players) : userInSomeRoom st u = true := by
  rcases h with ⟨kv, hkv, hu⟩
  unfold userInSomeRoom
  rw [List.any_eq_true]
  exact ⟨kv, hkv, by simpa using hu⟩

theorem joinCritical_conflict (st : MMState) (u newID : String)
    (hws : waitingSlotOK st = true) (hu : userInSomeRoom st u = true) :
    joinCritical st u newID = (.alreadyInQueue, st) ∨
    joinCritical st u newID = (.alreadyInRoom, st) := by
  unfold userInSomeRoom at hu
  unfold joinCritical
  cases hw : st.waitingRoomID with
  | none =>
    simp only [hw]
    rw [if_pos hu]
    right
    rfl
  | some wid =>
    unfold waitingSlotOK at hws
    rw [hw] at hws
    obtain ⟨wr, hwr⟩ := Option.isSome_iff_exists.mp hws
    simp only [hw, hwr]
    by_cases hm : u ∈ wr.players
    · rw [if_pos hm]
      left
      rfl
    · rw [if_neg hm]
      simp only []
      rw [if_pos hu]
      right
      rfl

theorem joinRoomHandler_conflict (st : MMState) (ctx : JoinCtx) (newRoomID : String)
    (c : UserClaims) (b : JoinRequest)
    (hm : ctx.method = "POST") (hc : ctx.claims = some c) (hb : ctx.body = some b)
    (hne : b.userID ≠ "") (hid : b.userID = c.userID) (hex : ctx.userExists = true)
    (hws : waitingSlotOK st = true) (hu : userInSomeRoom st b.userID = true) :
    ((joinRoomHandler st ctx newRoomID).1 = .alreadyInQueue ∨
      (joinRoomHandler st ctx newRoomID).1 = .alreadyInRoom) ∧
    (joinRoomHandler st ctx newRoomID).1.httpStatus = 409 ∧
    (joinRoomHandler st ctx newRoomID).2 = st := by
  have hu' : userInSomeRoom st c.userID = true := hid ▸ hu
  have hne' : c.userID ≠ "" := hid ▸ hne
  have hred : joinRoomHandler st ctx newRoomID = joinCritical st c.userID newRoomID := by
    simp [joinRoomHandler, hm, hc, hb, hex, hne', hid]
  rcases joinCritical_conflict st c.userID newRoomID hws hu' with h | h
  · rw [hred, h]
    exact ⟨Or.inl rfl, rfl, rfl⟩
  · rw [hred, h]
    exact ⟨Or.inr rfl, rfl, rfl⟩

/-- C9: a fully authenticated and verified join request from a player who
already appears in some (necessarily non-closed) room answers 409 — the
AlreadyQueued family of conflicts — and leaves the room table and the
waiting slot exactly as they were. -/
theorem join_already_queued (st : MMState) (ctx : JoinCtx) (newRoomID : String)
    (c : UserClaims) (b : JoinRequest)
    (hm : ctx.method = "POST") (hc : ctx.claims = some c) (hb : ctx.body = some b)
    (hne : b.userID ≠ "") (hid : b.userID = c.userID) (hex : ctx.userExists = true)
    (hws : waitingSlotOK st = true)
    (hroom : ∃ kv ∈ st.rooms, b.userID ∈ kv.2.players ∧ kv.2.status ≠ "closed") :
    ((joinRoomHandler st ctx newRoomID).1 = .alreadyInQueue ∨
      (joinRoomHandler st ctx newRoomID).1 = .alreadyInRoom) ∧
    (joinRoomHandler st ctx newRoomID).1.httpStatus = 409 ∧
    (joinRoomHandler st ctx newRoomID).2 = st := by
  have hu : userInSomeRoom st b.userID = true := by
    rcases hroom with ⟨kv, hkv, hmem, _⟩
    exact userInSomeRoom_of_mem ⟨kv, hkv, hmem⟩
  exact joinRoomHandler_conflict st ctx newRoomID c b hm hc hb hne hid hex hws hu

/-- Witness for `join_already_queued`: alice, already alone in the waiting
room, posts /join again and is rejected with 409 while the state is
untouched. -/
theorem join_already_queued_witness :
    ((joinRoomHandler queuedState aliceJoinCtx "r2").1 = JoinOutcome.alreadyInQueue ∨
      (joinRoomHandler queuedState aliceJoinCtx "r2").1 = JoinOutcome.alreadyInRoom) ∧
    (joinRoomHandler queuedState aliceJoinCtx "r2").1.httpStatus = 409 ∧
    (joinRoomHandler queuedState aliceJoinCtx "r2").2 = queuedState :=
  join_already_queued queuedState aliceJoinCtx "r2"
    { userID := "alice", username := "Alice" } { userID := "alice" }
    rfl rfl rfl (by decide) rfl rfl (by decide) (by decide)

theorem lookupRoom_isSome_iff (rooms : List (String × Room)) (rid : String) :
    (lookupRoom rooms rid).isSome = true ↔ rid ∈ rooms.map Prod.fst := by
  induction rooms with
  | nil => simp [lookupRoom]
  | cons kv rest ih =>
    unfold lookupRoom at ih ⊢
    by_cases h : kv.1 = rid
    · rw [List.find?_cons_of_pos _ (by simp [h])]
      simp [h]
    · rw [List.find?_cons_of_neg _ (by simp [h])]
      rw [List.map_cons, List.mem_cons, or_iff_right (show ¬ rid = kv.1 from fun e => h e.symm)]
      exact ih

theorem updateRoom_map_fst (rooms : List (String × Room)) (wid : String) (r : Room) :
    (updateRoom rooms wid r).map Prod.fst = rooms.map Prod.fst := by
  unfold updateRoom
  rw [List.map_map]
  apply List.map_congr_left
  intro kv _
  by_cases h : kv.1 = wid <;> simp [h]

theorem insertRoom_map_fst_of_fresh (rooms : List (String × Room)) (rid : String) (r : Room)
    (h : (lookupRoom rooms rid).isSome = false) :
    (insertRoom rooms rid r).map Prod.fst = rooms.map Prod.fst ++ [rid] := by
  unfold insertRoom lookupRoom at *
  rcases hf : (rooms.find? (fun kv => kv.1 = rid)) with _ | kv
  · simp [hf]
  · rw [hf] at h
    simp at h

theorem lookup_updateRoom_isSome (rooms : List (String × Room)) (wid rid : String) (r : Room)
    (h : (lookupRoom rooms rid).isSome = true) :
    (lookupRoom (updateRoom rooms wid r) rid).isSome = true := by
  rw [lookupRoom_isSome_iff, updateRoom_map_fst]
  exact (lookupRoom_isSome_iff rooms rid).mp h

theorem lookup_insertRoom_isSome (rooms : List (String × Room)) (k rid : String) (r : Room)
    (h : (lookupRoom rooms rid).isSome = true) :
    (lookupRoom (insertRoom rooms k r) rid).isSome = true := by
  unfold insertRoom
  by_cases hp : (rooms.find? (fun kv => kv.1 = k)).isSome = true
  · rw [if_pos hp]
    exact lookup_updateRoom_isSome rooms k rid r h
  · rw [if_neg hp, lookupRoom_isSome_iff, List.map_append]
    exact List.mem_append_left _ ((lookupRoom_isSome_iff rooms rid).mp h)

theorem userInSomeRoom_iff (st : MMState) (u : String) :
    userInSomeRoom st u = true ↔ ∃ kv ∈ st.rooms, u ∈ kv.2.players := by
  unfold userInSomeRoom
  simp [List.any_eq_true]

theorem lookupRoom_eq_of_nodup (rooms : List (String × Room)) (kv : String × Room)
    (hnd : (rooms.map Prod.fst).Nodup) (hkv : kv ∈ rooms) :
    lookupRoom rooms kv.1 = some kv.2 := by
  induction rooms with
  | nil => cases hkv
  | cons hd rest ih =>
    rw [List.map_cons, List.nodup_cons] at hnd
    rcases List.mem_cons.mp hkv with heq | hmem
    · subst heq
      unfold lookupRoom
      rw [List.find?_cons_of_pos _ (by simp)]
      rfl
    · by_cases h : hd.1 = kv.1
      · exact absurd (h ▸ List.mem_map_of_mem Prod.fst hmem) hnd.1
      · unfold lookupRoom at ih ⊢
        rw [List.find?_cons_of_neg _ (by simp [h])]
        exact ih hnd.2 hmem

theorem lookupRoom_isSome_eq_find_isSome (rooms : List (String × Room)) (rid : String) :
    (lookupRoom rooms rid).isSome = (rooms.find? (fun kv => kv.1 = rid)).isSome := by
  unfold lookupRoom
  cases rooms.find? (fun kv => kv.1 = rid) <;> rfl

theorem joinCritical_state_cases (st : MMState) (u newID : String) :
    (joinCritical st u newID).2 = st ∨
    (∃ wid wr, st.waitingRoomID = some wid ∧ lookupRoom st.rooms wid = some wr ∧
      (joinCritical st u newID).2 =
        { rooms := updateRoom st.rooms wid
            { wr with players := wr.players ++ [u], status := "full" },
          waitingRoomID := none }) ∨
    (st.waitingRoomID = none ∧
      (joinCritical st u newID).2 =
        { rooms := insertRoom st.rooms newID
            { id := newID, players := [u], status := "waiting" },
          waitingRoomID := some newID }) := by
  unfold joinCritical
  cases hw : st.waitingRoomID with
  | none =>
    dsimp only
    by_cases hin : st.rooms.any (fun kv => decide (u ∈ kv.2.players)) = true
    · rw [if_pos hin]
      left
      rfl
    · rw [if_neg hin]
      right; right
      exact ⟨rfl, rfl⟩
  | some wid =>
    dsimp only
    cases hlk : lookupRoom st.rooms wid with
    | none =>
      dsimp only
      left
      rfl
    | some wr =>
      dsimp only
      by_cases hq : u ∈ wr.players
      · rw [if_pos hq]
        left
        rfl
      · rw [if_neg hq]
        dsimp only
        by_cases hin : st.rooms.any (fun kv => decide (u ∈ kv.2.players)) = true
        · rw [if_pos hin]
          left
          rfl
        · rw [if_neg hin]
          by_cases hself : wr.players.head? = some u
          · rw [if_pos hself]
            left
            rfl
          · rw [if_neg hself]
            right; left
            exact ⟨wid, wr, rfl, hlk, rfl⟩

theorem joinRoomHandler_state_cases (st : MMState) (ctx : JoinCtx) (newID : String) :
    (joinRoomHandler st ctx newID).2 = st ∨
    ∃ b : JoinRequest, ctx.body = some b ∧
      joinRoomHandler st ctx newID = joinCritical st b.userID newID := by
  unfold joinRoomHandler
  by_cases h1 : ctx.method ≠ "POST"
  · rw [if_pos h1]
    left
    rfl
  · rw [if_neg h1]
    cases hc : ctx.claims with
    | none =>
      left
      rfl
    | some c =>
      cases hb : ctx.body with
      | none =>
        left
        rfl
      | some b =>
        dsimp only
        by_cases h2 : b.userID = ""
        · rw [if_pos h2]
          left
          rfl
        · rw [if_neg h2]
          by_cases h3 : b.userID ≠ c.userID
          · rw [if_pos h3]
            left
            rfl
          · rw [if_neg h3]
            by_cases h4 : ¬ ctx.userExists
            · rw [if_pos h4]
              left
              rfl
            · rw [if_neg h4]
              right
              exact ⟨b, rfl, rfl⟩

theorem mmStep_preserves_key (st : MMState) (op : MMOp) (rid : String)
    (h : (lookupRoom st.rooms rid).isSome = true) :
    (lookupRoom (mmStep st op).rooms rid).isSome = true := by
  cases op with
  | getRoom m p => exact h
  | roomReady m p => exact h
  | health => exact h
  | join ctx newID =>
    show (lookupRoom (joinRoomHandler st ctx newID).2.rooms rid).isSome = true
    rcases joinRoomHandler_state_cases st ctx newID with hst | ⟨b, hb, heq⟩
    · rw [hst]
      exact h
    · rw [heq]
      rcases joinCritical_state_cases st b.userID newID with h1 | ⟨wid, wr, hw, hlk, h2⟩ | ⟨hw, h3⟩
      · rw [h1]
        exact h
      · rw [h2]
        exact lookup_updateRoom_isSome _ _ _ _ h
      · rw [h3]
        exact lookup_insertRoom_isSome _ _ _ _ h

theorem mmStep_preserves_status (st : MMState) (op : MMOp)
    (hall : ∀ kv ∈ st.rooms, kv.2.status = "waiting" ∨ kv.2.status = "full") :
    ∀ kv ∈ (mmStep st op).rooms, kv.2.status = "waiting" ∨ kv.2.status = "full" := by
  cases op with
  | getRoom m p => exact hall
  | roomReady m p => exact hall
  | health => exact hall
  | join ctx newID =>
    show ∀ kv ∈ (joinRoomHandler st ctx newID).2.rooms, _
    rcases joinRoomHandler_state_cases st ctx newID with hst | ⟨b, hb, heq⟩
    · rw [hst]
      exact hall
    · rw [heq]
      rcases joinCritical_state_cases st b.userID newID with h1 | ⟨wid, wr, hw, hlk, h2⟩ | ⟨hw, h3⟩
      · rw [h1]
        exact hall
      · rw [h2]
        intro kv hkv
        unfold updateRoom at hkv
        rcases List.mem_map.mp hkv with ⟨kv0, hkv0, hmap⟩
        by_cases hk : kv0.1 = wid
        · rw [if_pos hk] at hmap
          rw [← hmap]
          right
          rfl
        · rw [if_neg hk] at hmap
          exact hmap ▸ hall kv0 hkv0
      · rw [h3]
        intro kv hkv
        unfold insertRoom at hkv
        by_cases hp : (st.rooms.find? (fun kv => kv.1 = newID)).isSome = true
        · rw [if_pos hp] at hkv
          unfold updateRoom at hkv
          rcases List.mem_map.mp hkv with ⟨kv0, hkv0, hmap⟩
          by_cases hk : kv0.1 = newID
          · rw [if_pos hk] at hmap
            rw [← hmap]
            left
            rfl
          · rw [if_neg hk] at hmap
            exact hmap ▸ hall kv0 hkv0
        · rw [if_neg hp] at hkv
          rcases List.mem_append.mp hkv with hold | hnew
          · exact hall kv hold
          · rw [List.mem_singleton.mp hnew]
            left
            rfl

theorem mmStep_preserves_member (st : MMState) (op : MMOp) (u : String)
    (hnd : (st.rooms.map Prod.fst).Nodup) (hfre : opFresh st op = true)
    (h : userInSomeRoom st u = true) :
    userInSomeRoom (mmStep st op) u = true := by
  cases op with
  | getRoom m p => exact h
  | roomReady m p => exact h
  | health => exact h
  | join ctx newID =>
    show userInSomeRoom (joinRoomHandler st ctx newID).2 u = true
    rcases joinRoomHandler_state_cases st ctx newID with hst | ⟨b, hb, heq⟩
    · rw [hst]
      exact h
    · rw [heq]
      rcases joinCritical_state_cases st b.userID newID with h1 | ⟨wid, wr, hw, hlk, h2⟩ | ⟨hw, h3⟩
      · rw [h1]
        exact h
      · rw [h2]
        rcases (userInSomeRoom_iff st u).mp h with ⟨kv, hkv, hu⟩
        apply (userInSomeRoom_iff _ u).mpr
        by_cases hk : kv.1 = wid
        · have hkey : lookupRoom st.rooms kv.1 = some kv.2 :=
            lookupRoom_eq_of_nodup st.rooms kv hnd hkv
          rw [hk, hlk] at hkey
          have hwr : wr = kv.2 := Option.some.inj hkey
          refine ⟨(kv.1, { wr with players := wr.players ++ [b.userID], status := "full" }),
            ?_, ?_⟩
          · have him := List.mem_map_of_mem
              (fun kv0 => if kv0.1 = wid then
                (kv0.1, { wr with players := wr.players ++ [b.userID], status := "full" })
                else kv0) hkv
            dsimp only at him
            rw [if_pos hk] at him
            exact him
          · dsimp only
            exact List.mem_append_left _ (hwr ▸ hu)
        · refine ⟨kv, ?_, hu⟩
          have him := List.mem_map_of_mem
            (fun kv0 => if kv0.1 = wid then
              (kv0.1, { wr with players := wr.players ++ [b.userID], status := "full" })
              else kv0) hkv
          dsimp only at him
          rw [if_neg hk] at him
          exact him
      · rw [h3]
        rcases (userInSomeRoom_iff st u).mp h with ⟨kv, hkv, hu⟩
        apply (userInSomeRoom_iff _ u).mpr
        refine ⟨kv, ?_, hu⟩
        have hfre' : (lookupRoom st.rooms newID).isSome = false := by
          simpa [opFresh] using hfre
        have hfind : ¬ (st.rooms.find? (fun kv0 => kv0.1 = newID)).isSome = true := by
          rw [← lookupRoom_isSome_eq_find_isSome, hfre']
          exact Bool.false_ne_true
        unfold insertRoom
        rw [if_neg hfind]
        exact List.mem_append_left _ hkv

theorem mmStep_preserves_MMWF (st : MMState) (op : MMOp)
    (hwf : MMWF st) (hfre : opFresh st op = true) : MMWF (mmStep st op) := by
  obtain ⟨hnd, hws⟩ := hwf
  cases op with
  | getRoom m p => exact ⟨hnd, hws⟩
  | roomReady m p => exact ⟨hnd, hws⟩
  | health => exact ⟨hnd, hws⟩
  | join ctx newID =>
    show MMWF (joinRoomHandler st ctx newID).2
    rcases joinRoomHandler_state_cases st ctx newID with hst | ⟨b, hb, heq⟩
    · rw [hst]
      exact ⟨hnd, hws⟩
    · rw [heq]
      rcases joinCritical_state_cases st b.userID newID with h1 | ⟨wid, wr, hw, hlk, h2⟩ | ⟨hw, h3⟩
      · rw [h1]
        exact ⟨hnd, hws⟩
      · rw [h2]
        constructor
        · dsimp only
          rw [updateRoom_map_fst]
          exact hnd
        · rfl
      · rw [h3]
        have hfre' : (lookupRoom st.rooms newID).isSome = false := by
          simpa [opFresh] using hfre
        constructor
        · dsimp only
          rw [insertRoom_map_fst_of_fresh _ _ _ hfre', List.nodup_append]
          refine ⟨hnd, List.nodup_singleton _, ?_⟩
          intro a ha hmem
          rw [List.mem_singleton] at hmem
          subst hmem
          have hsome : (lookupRoom st.rooms a).isSome = true :=
            (lookupRoom_isSome_iff _ _).mpr ha
          rw [hfre'] at hsome
          cases hsome
        · unfold waitingSlotOK
          dsimp only
          rw [lookupRoom_isSome_iff, insertRoom_map_fst_of_fresh _ _ _ hfre']
          exact List.mem_append_right _ (List.mem_singleton_self _)

theorem mmRun_preserves (ops : List MMOp) (st : MMState) (u : String)
    (hwf : MMWF st) (hfr : freshRun st ops = true) :
    MMWF (mmRun st ops) ∧
    (userInSomeRoom st u = true → userInSomeRoom (mmRun st ops) u = true) := by
  induction ops generalizing st with
  | nil => exact ⟨hwf, id⟩
  | cons op ops ih =>
    have hsplit := Bool.and_eq_true_iff.mp hfr
    have hwf' := mmStep_preserves_MMWF st op hwf hsplit.1
    obtain ⟨ha, hb⟩ := ih (mmStep st op) hwf' hsplit.2
    exact ⟨ha, fun h => hb (mmStep_preserves_member st op u hwf.1 hsplit.1 h)⟩

/-- C10: no matchmaker operation removes a room key or produces a status
outside {waiting, full} (in particular never "closed"); consequently a
player who appears in some room still does after any well-formed request
sequence with fresh room ids, so every later authenticated join by that
player answers 409 and changes nothing, for the remaining lifetime of the
process. -/
theorem rooms_never_closed :
    (∀ (st : MMState) (op : MMOp) (rid : String),
        (lookupRoom st.rooms rid).isSome = true →
        (lookupRoom (mmStep st op).rooms rid).isSome = true) ∧
    (∀ (st : MMState) (op : MMOp),
        (∀ kv ∈ st.rooms, kv.2.status = "waiting" ∨ kv.2.status = "full") →
        ∀ kv ∈ (mmStep st op).rooms, kv.2.status = "waiting" ∨ kv.2.status = "full") ∧
    (∀ (st : MMState) (ops : List MMOp) (ctx : JoinCtx) (newRoomID : String)
        (c : UserClaims) (b : JoinRequest),
        MMWF st → freshRun st ops = true →
        ctx.method = "POST" → ctx.claims = some c → ctx.body = some b →
        b.userID ≠ "" → b.userID = c.userID → ctx.userExists = true →
        userInSomeRoom st b.userID = true →
        (joinRoomHandler (mmRun st ops) ctx newRoomID).1.httpStatus = 409 ∧
        (joinRoomHandler (mmRun st ops) ctx newRoomID).2 = mmRun st ops) := by
  refine ⟨mmStep_preserves_key, mmStep_preserves_status, ?_⟩
  intro st ops ctx newRoomID c b hwf hfr hm hc hb hne hid hex hmem
  obtain ⟨hwf', hmono⟩ := mmRun_preserves ops st b.userID hwf hfr
  have hconf := joinRoomHandler_conflict (mmRun st ops) ctx newRoomID c b
    hm hc hb hne hid hex hwf'.2 (hmono hmem)
  exact ⟨hconf.2.1, hconf.2.2⟩

/-- Witness for `rooms_never_closed`: after bob's join fills alice's
waiting room and the game plays out, alice's fresh join attempt still
answers 409 with the state untouched. -/
theorem rooms_never_closed_witness :
    (joinRoomHandler (mmRun queuedState [MMOp.join bobJoinCtx "r2"])
        aliceJoinCtx "r3").1.httpStatus = 409 ∧
    (joinRoomHandler (mmRun queuedState [MMOp.join bobJoinCtx "r2"])
        aliceJoinCtx "r3").2 = mmRun queuedState [MMOp.join bobJoinCtx "r2"] :=
  rooms_never_closed.2.2 queuedState [MMOp.join bobJoinCtx "r2"] aliceJoinCtx "r3"
    { userID := "alice", username := "Alice" } { userID := "alice" }
    (by decide) (by decide) rfl rfl rfl (by decide) rfl rfl (by decide)

end RoomSvc
